import Mathlib

/-!
Verification of the topic metadata and partition-routing core
(`src/rdkafka_topic.c`) against its natural-language specification.

The C source is shallowly embedded: each C function of the file becomes a
Lean function of the same name operating on explicit state values.
Machine integers (`int32_t`, `rd_ts_t`) are modelled as `Int`; partition
counts are the length of the partition array (the source keeps
`rkt_partition_cnt` equal to the length of `rkt_p` at all times).
Collaborator functions from other translation units (the partition
object `rd_kafka_toppar_*`, broker lookup, the partitioner, the
delivery-report sink) are modelled from the spec's section 6 and are
marked as such in their doc comments.
-/

namespace RdKafka

/-- Kafka error kinds observed at this module's boundary (spec section 7). -/
inductive KErr where
  | noError
  | unknownTopicOrPart
  | unknown
  | leaderNotAvailable
  | invalidArg
  | unknownPartition
  | unknownTopic
  | msgTimedOut
deriving DecidableEq, Repr

/-- Topic states `RD_KAFKA_TOPIC_S_{UNKNOWN,EXISTS,NOTEXISTS}`. -/
inductive TopicState where
  | sUnknown
  | sExists
  | sNotExists
deriving DecidableEq, Repr

/-- Client role, `rk_type` (`RD_KAFKA_PRODUCER` / `RD_KAFKA_CONSUMER`). -/
inductive ClientType where
  | producer
  | consumer
deriving DecidableEq, Repr

/-- Topic names are bounded byte strings; a byte list models a C string
(`NULL` pointers are modelled by `Option`). -/
abbrev Name := List Nat

/-- Broker node ids. A broker handle obtained from the broker directory is
identified by its node id; the directory holds one broker object per node
id, so pointer equality on broker handles coincides with node-id
equality. -/
abbrev NodeId := Int

/-- `RD_KAFKA_PARTITION_UA`: the unassigned-partition sentinel id. -/
def RD_KAFKA_PARTITION_UA : Int := -1

/-- A produced message: its forced partition (`rkm_partition`, which is
`RD_KAFKA_PARTITION_UA` when the application did not force one) and an
abstract payload identity. -/
structure Msg where
  rkm_partition : Int
  payload : Nat
deriving DecidableEq, Repr

/-- Modelled from the spec: the partition collaborator (`Toppar`,
spec section 6).  Holds the partition id, the delegated leader broker
(`rktp_leader`), the `Desired` and `Unknown` flags, the message queue and
the per-partition error notification queue fed by `enq_error`. -/
structure Toppar where
  rktp_partition : Int
  rktp_leader : Option NodeId
  f_desired : Bool
  f_unknown : Bool
  rktp_msgq : List Msg
  rktp_errq : List KErr
deriving DecidableEq, Repr

/-- Per-topic configuration.  The real object (partitioner function,
compression codec, user pointer) is out of this module's scope
(spec section 1); only its identity matters to the claims, so it is
modelled as an abstract token. -/
structure TopicConf where
  conf_id : Nat
deriving DecidableEq, Repr

/-- The topic entity `rd_kafka_itopic_t`.  The source field
`rkt_partition_cnt` is kept equal to the length of `rkt_p` by every
writer, so the count is modelled as `rkt_p.length`. -/
structure Topic where
  rkt_topic : Name
  rkt_state : TopicState
  rkt_p : List Toppar
  rkt_ua : Toppar
  rkt_desp : List Toppar
  rkt_ts_metadata : Int
  rkt_conf : TopicConf
deriving DecidableEq, Repr

/-- `rkt_partition_cnt`. -/
def Topic.partition_cnt (t : Topic) : Nat := t.rkt_p.length

/-- The client `rd_kafka_t`: role, terminating flag, broker directory
(node ids present), topic blacklist, metadata refresh interval and the
default topic configuration. -/
structure Client where
  rk_type : ClientType
  rk_terminate : Bool
  rk_brokers : List NodeId
  topic_blacklist : List Name
  metadata_refresh_interval_ms : Int
  rk_conf_topic_conf : Option TopicConf
deriving DecidableEq, Repr

/-- The client together with its topic registry `rk_topics`. -/
structure World where
  rk : Client
  rk_topics : List Topic
deriving DecidableEq, Repr

/-- One entry of `mdt->partitions`: partition id and leader node id
(`-1` means no leader). -/
structure MetadataPartition where
  id : Int
  leader : NodeId
deriving DecidableEq, Repr

/-- A per-topic metadata record `struct rd_kafka_metadata_topic`.
`partition_cnt` is the length of `partitions` (the decoder allocates the
array with exactly `partition_cnt` entries). -/
structure MetadataTopic where
  topic : Name
  err : KErr
  partitions : List MetadataPartition
deriving DecidableEq, Repr

def MetadataTopic.partition_cnt (mdt : MetadataTopic) : Nat :=
  mdt.partitions.length

/-! ## List helpers -/

/-- Remove the first element satisfying `p` (models `rd_list_remove`). -/
def erase_first (p : α → Bool) : List α → List α
  | [] => []
  | x :: xs => if p x then xs else x :: erase_first p xs

/-- Apply `f` at index `i`, returning the list unchanged when out of
range. -/
def modify_idx (f : α → α) : List α → Nat → List α
  | [], _ => []
  | x :: xs, 0 => f x :: xs
  | x :: xs, n + 1 => x :: modify_idx f xs n

/-! ## Collaborator models (spec section 6) -/

/-- Modelled from the spec: `delegate_to_broker(partition, broker?)`
binds the partition to the given broker handle (none clears the
delegation). -/
def rd_kafka_toppar_broker_delegate (p : Toppar) (b : Option NodeId) : Toppar :=
  { p with rktp_leader := b }

/-- Modelled from the spec: `enq_error(partition, error_kind)` enqueues
an error on the partition's notification queue. -/
def rd_kafka_toppar_enq_error (p : Toppar) (e : KErr) : Toppar :=
  { p with rktp_errq := p.rktp_errq ++ [e] }

/-- Modelled from the spec: `new_partition(topic, id)` constructs a fresh
partition: no leader, no flags, empty queues. -/
def rd_kafka_toppar_new (id : Int) : Toppar :=
  { rktp_partition := id, rktp_leader := none, f_desired := false,
    f_unknown := false, rktp_msgq := [], rktp_errq := [] }

/-- Modelled from the spec: `move_msgs(dest, src)` moves all queued
messages from `src` to `dest` preserving order. -/
def rd_kafka_toppar_move_msgs (dst src : Toppar) : Toppar × Toppar :=
  ({ dst with rktp_msgq := dst.rktp_msgq ++ src.rktp_msgq },
   { src with rktp_msgq := [] })

/-- Modelled from the spec: `purge_queues(partition)` discards residual
queued messages. -/
def rd_kafka_toppar_purge_queues (p : Toppar) : Toppar :=
  { p with rktp_msgq := [] }

/-- Modelled from the spec: `get_partition(topic, id, no-ua-on-miss)`
returns `partitions[id]` for an id within `[0, partition_cnt)`, the UA
slot for the sentinel id, and nothing otherwise. -/
def rd_kafka_toppar_get (t : Topic) (partition : Int) : Option Toppar :=
  if 0 ≤ partition then t.rkt_p[partition.toNat]?
  else if partition = RD_KAFKA_PARTITION_UA then some t.rkt_ua
  else none

/-- Modelled from the spec: `desired_get(topic, id)` finds the desired
partition with the given id. -/
def rd_kafka_toppar_desired_get (desp : List Toppar) (i : Int) : Option Toppar :=
  desp.find? (fun p => p.rktp_partition == i)

/-- Modelled from the spec: `find_broker_by_nodeid(client, id)` returns
the broker handle for a node id present in the broker directory. -/
def rd_kafka_broker_find_by_nodeid (rk : Client) (nodeid : NodeId) : Option NodeId :=
  rk.rk_brokers.find? (fun b => b == nodeid)

/-- Modelled from the spec: blacklist matching
(`rd_kafka_pattern_match`); pattern syntax is out of scope
(spec section 1), so membership by name equality models it. -/
def rd_kafka_pattern_match (blacklist : List Name) (topic : Name) : Bool :=
  blacklist.contains topic

/-- Modelled from the spec: the partitioner collaborator.  Given the
topic and a message it either selects the partition queue the message is
routed onto (`some i`) or fails (`none`), covering both a failing
partitioner callback and an unavailable selected partition
(`rd_kafka_msg_partitioner` returning nonzero). -/
abbrev PartitionerFn := Topic → Msg → Option Nat

/-- Routing a successfully partitioned message onto partition `i`'s
queue. -/
def route_msg (t : Topic) (i : Nat) (m : Msg) : Topic :=
  { t with rkt_p := modify_idx (fun p => { p with rktp_msgq := p.rktp_msgq ++ [m] }) t.rkt_p i }

/-- Write back the partition obtained from `rd_kafka_toppar_get` (the C
code mutates the shared object in place). -/
def topic_put (t : Topic) (partition : Int) (p : Toppar) : Topic :=
  if 0 ≤ partition then { t with rkt_p := t.rkt_p.set partition.toNat p }
  else { t with rkt_ua := p }

/-! ## Embedded source functions (`src/rdkafka_topic.c`) -/

/-- `rd_kafka_topic_set_state`: sets the topic state (a no-op when the
state is unchanged; the source only skips the debug log in that case). -/
def rd_kafka_topic_set_state (t : Topic) (s : TopicState) : Topic :=
  { t with rkt_state := s }

/-- `rd_kafka_topic_find`: scan the registry for a name match. -/
def rd_kafka_topic_find (w : World) (topic : Name) : Option Topic :=
  w.rk_topics.find? (fun t => t.rkt_topic == topic)

/-- Replace the found topic in the registry by its updated value (the C
code mutates the found object in place, leaving the rest of the
`rk_topics` list untouched). -/
def replace_topic (topic : Name) (t' : Topic) : List Topic → List Topic
  | [] => []
  | t :: ts =>
    if t.rkt_topic == topic then t' :: ts else t :: replace_topic topic t' ts

/-- `rd_kafka_topic_new0`: validate the name (`!topic || strlen(topic) >
512` fails with `InvalidArgument`, modelled by `none`), return an
existing same-named topic with `existing = true` (discarding the
caller's configuration), or construct and insert a fresh topic: state
`Unknown`, empty partition array, fresh UA partition, empty desired
list, `ts_metadata = 0`, configuration from the caller or the client's
default.  (The partitioner / compression defaulting on the fresh
configuration concerns fields of the out-of-scope configuration object
and is not represented in the abstract `TopicConf`.) -/
def rd_kafka_topic_new0 (w : World) (topic : Option Name)
    (conf : Option TopicConf) : Option (World × Topic × Bool) :=
  match topic with
  | none => none
  | some nm =>
    if nm.length > 512 then none
    else
      match rd_kafka_topic_find w nm with
      | some rkt => some (w, rkt, true)
      | none =>
        let conf' :=
          match conf with
          | some c => c
          | none =>
            match w.rk.rk_conf_topic_conf with
            | some c => c
            | none => { conf_id := 0 }
        let rkt : Topic :=
          { rkt_topic := nm, rkt_state := .sUnknown, rkt_p := [],
            rkt_ua := rd_kafka_toppar_new RD_KAFKA_PARTITION_UA,
            rkt_desp := [], rkt_ts_metadata := 0, rkt_conf := conf' }
        some ({ w with rk_topics := w.rk_topics ++ [rkt] }, rkt, false)

/-- `rd_kafka_topic_leader_update`: update the leader for one
topic+partition.  Returns the updated topic together with `1` if the
leader changed, `0` for no change, `-1` if the partition (or its leader)
is unknown.  `leader_id` is carried for fidelity with the C signature
(it is only used for logging there). -/
def rd_kafka_topic_leader_update (t : Topic) (partition : Int)
    (leader_id : NodeId) (rkb : Option NodeId) : Topic × Int :=
  match rd_kafka_toppar_get t partition with
  | none => (t, -1)
  | some rktp =>
    match rkb with
    | none =>
      let had_leader := rktp.rktp_leader.isSome
      let rktp' := rd_kafka_toppar_broker_delegate rktp none
      (topic_put t partition rktp', if had_leader then -1 else 0)
    | some b =>
      if rktp.rktp_leader = some b then (t, 0)
      else (topic_put t partition (rd_kafka_toppar_broker_delegate rktp (some b)), 1)

/-- One iteration of the partition-array construction loop of
`rd_kafka_topic_partition_cnt_update` for slot `i`: move the existing
partition, or adopt a desired one (clearing its `Unknown` flag and
unlinking it when the flag was set), or construct a fresh one. -/
def cnt_update_slot (old desp : List Toppar) (i : Nat) : Toppar × List Toppar :=
  match old[i]? with
  | some p => (p, desp)
  | none =>
    match rd_kafka_toppar_desired_get desp (i : Int) with
    | some rktp =>
      if rktp.f_unknown then
        ({ rktp with f_unknown := false },
         erase_first (fun p => p.rktp_partition == (i : Int)) desp)
      else (rktp, desp)
    | none => (rd_kafka_toppar_new (i : Int), desp)

/-- The partition-array construction loop: builds slots `i, …, i+k-1`,
threading the desired list. -/
def cnt_update_build (old : List Toppar) :
    List Toppar → Nat → Nat → List Toppar × List Toppar
  | desp, _, 0 => ([], desp)
  | desp, i, k + 1 =>
    let r := cnt_update_slot old desp i
    let r' := cnt_update_build old r.2 (i + 1) k
    (r.1 :: r'.1, r'.2)

/-- The removal loop of `rd_kafka_topic_partition_cnt_update` for one
excess partition: clear the delegation, move its messages to the UA
slot, purge residual queues, and when the partition is `Desired` mark it
`Unknown`, re-link it onto the desired list and (unless the client is
terminating) enqueue an `UnknownPartition` error. -/
def cnt_update_remove (rk : Client) (acc : Toppar × List Toppar)
    (s : Toppar) : Toppar × List Toppar :=
  let ua := acc.1
  let desp := acc.2
  let rktp := rd_kafka_toppar_broker_delegate s none
  let mv := rd_kafka_toppar_move_msgs ua rktp
  let ua' := mv.1
  let rktp'' := rd_kafka_toppar_purge_queues mv.2
  if rktp''.f_desired then
    let rktp3 := { rktp'' with f_unknown := true }
    let rktp4 :=
      if rk.rk_terminate then rktp3
      else rd_kafka_toppar_enq_error rktp3 .unknownPartition
    (ua', desp ++ [rktp4])
  else (ua', desp)

/-- `rd_kafka_topic_partition_cnt_update`: reconcile the partition array
against a new authoritative count.  Returns `0` when the count is
unchanged, otherwise rebuilds the array (spec section 4.3): slots below
the old count are moved, new slots are adopted from the desired list or
freshly constructed, every partition still on the desired list gets an
`UnknownPartition` error, and excess partitions are torn down into the
UA slot.  Returns `1` in that case. -/
def rd_kafka_topic_partition_cnt_update (rk : Client) (t : Topic)
    (partition_cnt : Nat) : Topic × Int :=
  if t.rkt_p.length = partition_cnt then (t, 0)
  else
    let bld := cnt_update_build t.rkt_p t.rkt_desp 0 partition_cnt
    let desp2 := bld.2.map (fun p => rd_kafka_toppar_enq_error p .unknownPartition)
    let rem :=
      (t.rkt_p.drop partition_cnt).foldl (cnt_update_remove rk) (t.rkt_ua, desp2)
    ({ t with rkt_p := bld.1, rkt_ua := rem.1, rkt_desp := rem.2 }, 1)

/-- `rd_kafka_topic_propagate_notexists`: on consumer-role clients,
enqueue one `UnknownTopic` error on every desired partition's
notification queue; no effect on other roles. -/
def rd_kafka_topic_propagate_notexists (rk : Client) (t : Topic) : Topic :=
  if rk.rk_type ≠ .consumer then t
  else
    { t with rkt_desp :=
        t.rkt_desp.map (fun p => rd_kafka_toppar_enq_error p .unknownTopic) }

/-- The fast-path failure test of `rd_kafka_topic_assign_uas`: a forced
partition that is out of range while the topic state is known. -/
def assign_uas_fastfail (t : Topic) (m : Msg) : Prop :=
  m.rkm_partition ≠ RD_KAFKA_PARTITION_UA ∧
  (t.rkt_p.length : Int) ≤ m.rkm_partition ∧
  t.rkt_state ≠ .sUnknown

instance (t : Topic) (m : Msg) : Decidable (assign_uas_fastfail t m) := by
  unfold assign_uas_fastfail; infer_instance

/-- The message loop of `rd_kafka_topic_assign_uas`: route each drained
message through the fast-path test and the partitioner, collecting the
failed ones in order. -/
def assign_uas_loop (pf : PartitionerFn) : Topic → List Msg → Topic × List Msg
  | t, [] => (t, [])
  | t, m :: ms =>
    if assign_uas_fastfail t m then
      let r := assign_uas_loop pf t ms
      (r.1, m :: r.2)
    else
      match pf t m with
      | some i => assign_uas_loop pf (route_msg t i m) ms
      | none =>
        let r := assign_uas_loop pf t ms
        (r.1, m :: r.2)

/-- `rd_kafka_topic_assign_uas`: on producer-role clients, drain the UA
partition's queue, re-partition every message, and deliver the failed
ones to the delivery-report sink with `UnknownTopic` when the topic
state is `NotExists` and `UnknownPartition` otherwise.  The second
component is the delivery-report output. -/
def rd_kafka_topic_assign_uas (rk : Client) (pf : PartitionerFn)
    (t : Topic) : Topic × List (Msg × KErr) :=
  if rk.rk_type ≠ .producer then (t, [])
  else
    let uas := t.rkt_ua.rktp_msgq
    let t1 := { t with rkt_ua := { t.rkt_ua with rktp_msgq := [] } }
    let r := assign_uas_loop pf t1 uas
    let e := if r.1.rkt_state = .sNotExists then KErr.unknownTopic
             else KErr.unknownPartition
    (r.1, r.2.map (fun m => (m, e)))

/-- `rd_kafka_topic_metadata_none`: a metadata reply carried no
information about the topic.  Unless terminating: stamp `ts_metadata`,
transition to `NotExists`, reconcile the partition count to `0`, flush
the UA queue and propagate the nonexistence. -/
def rd_kafka_topic_metadata_none (rk : Client) (pf : PartitionerFn)
    (t : Topic) (now : Int) : Topic × List (Msg × KErr) :=
  if rk.rk_terminate then (t, [])
  else
    let t1 := { t with rkt_ts_metadata := now }
    let t2 := rd_kafka_topic_set_state t1 .sNotExists
    let t3 := (rd_kafka_topic_partition_cnt_update rk t2 0).1
    let r := rd_kafka_topic_assign_uas rk pf t3
    (rd_kafka_topic_propagate_notexists rk r.1, r.2)

/-- Pre-resolution of one partition leader under the client read lock:
`-1` means no leader, otherwise look the broker up by node id. -/
def resolve_leader (rk : Client) (mp : MetadataPartition) : Option NodeId :=
  if mp.leader = -1 then none
  else rd_kafka_broker_find_by_nodeid rk mp.leader

/-- The per-partition leader-update loop of
`rd_kafka_topic_metadata_update`, over the metadata entries zipped with
their pre-resolved broker handles.  Returns the topic, the number of
entries that reported a change (`r ≠ 0`), and whether any reported
`LeaderUnknown` (`r = -1`, which triggers a leader query). -/
def leader_update_loop (t : Topic) :
    List (MetadataPartition × Option NodeId) → Topic × Int × Bool
  | [] => (t, 0, false)
  | (mp, b) :: rest =>
    let lu := rd_kafka_topic_leader_update t mp.id mp.leader b
    let rest' := leader_update_loop lu.1 rest
    (rest'.1, (if lu.2 ≠ 0 then 1 else 0) + rest'.2.1, (lu.2 == -1) || rest'.2.2)

/-- Result of applying one metadata record to one topic. -/
structure MdResult where
  rkt : Topic
  dr : List (Msg × KErr)
  ret : Int
  query_leader : Bool
deriving DecidableEq, Repr

/-- The state-transition step of `rd_kafka_topic_metadata_update`
(source lines 701–709): stamp `ts_metadata`, then set state `NotExists`
for `UnknownTopicOrPart` / `Unknown` errors, else `Exists` when
partitions were reported. -/
def md_update_state (rkt : Topic) (mdt : MetadataTopic) (now : Int) : Topic :=
  let t1 := { rkt with rkt_ts_metadata := now }
  if mdt.err = .unknownTopicOrPart ∨ mdt.err = .unknown then
    rd_kafka_topic_set_state t1 .sNotExists
  else if 0 < mdt.partitions.length then
    rd_kafka_topic_set_state t1 .sExists
  else t1

/-- The partition-count step (source lines 711–715): reconcile only for
error-free replies. -/
def md_update_cnt (rk : Client) (t : Topic) (mdt : MetadataTopic) :
    Topic × Int :=
  if mdt.err = .noError then
    rd_kafka_topic_partition_cnt_update rk t mdt.partitions.length
  else (t, 0)

/-- The topic-wide leader invalidation (source lines 748–762): on a
(possibly intermittent) topic-wide error, clear the delegation of every
partition. -/
def md_clear_leaders (t : Topic) (mdt : MetadataTopic) : Topic :=
  if mdt.err ≠ .noError ∧ t.rkt_p.length ≠ 0 then
    { t with rkt_p :=
        t.rkt_p.map (fun p => rd_kafka_toppar_broker_delegate p none) }
  else t

/-- The UA-flush trigger (source lines 764–766): run the flush when
changes were applied or the topic does not exist. -/
def md_flush (rk : Client) (pf : PartitionerFn) (upd : Int) (t : Topic) :
    Topic × List (Msg × KErr) :=
  if 0 < upd ∨ t.rkt_state = .sNotExists then
    rd_kafka_topic_assign_uas rk pf t
  else (t, [])

/-- The `NotExists`-propagation trigger (source lines 768–771): run the
propagation exactly on a transition into `NotExists`. -/
def md_propagate (rk : Client) (old_state : TopicState) (t : Topic) : Topic :=
  if old_state ≠ t.rkt_state ∧ t.rkt_state = .sNotExists then
    rd_kafka_topic_propagate_notexists rk t
  else t

/-- The body of `rd_kafka_topic_metadata_update` after the registry
lookup: the terminating check made under the client read lock (returning
`-1` with the topic untouched), broker pre-resolution, and then under
the topic write lock the steps above in source order, followed by the
per-partition leader updates between the count step and the
invalidation step. -/
def rd_kafka_topic_metadata_update0 (rk : Client) (pf : PartitionerFn)
    (rkt : Topic) (mdt : MetadataTopic) (now : Int) : MdResult :=
  if rk.rk_terminate then ⟨rkt, [], -1, false⟩
  else
    let partbrokers := mdt.partitions.map (resolve_leader rk)
    let old_state := rkt.rkt_state
    let cu := md_update_cnt rk (md_update_state rkt mdt now) mdt
    let lu := leader_update_loop cu.1 (mdt.partitions.zip partbrokers)
    let upd := cu.2 + lu.2.1
    let fl := md_flush rk pf upd (md_clear_leaders lu.1 mdt)
    ⟨md_propagate rk old_state fl.1, fl.2, upd, lu.2.2⟩

/-- Result of `rd_kafka_topic_metadata_update` at the registry level. -/
structure MdWorldResult where
  world : World
  dr : List (Msg × KErr)
  ret : Int
  query_leader : Bool
deriving DecidableEq, Repr

/-- `rd_kafka_topic_metadata_update`: the metadata-application entry
point.  Blacklisted topics, the transient `LeaderNotAvailable` with zero
partitions, a topic not tracked locally, and a terminating client all
return `-1` without topic changes; otherwise the record is applied to
the found topic. -/
def rd_kafka_topic_metadata_update (w : World) (pf : PartitionerFn)
    (mdt : MetadataTopic) (now : Int) : MdWorldResult :=
  if rd_kafka_pattern_match w.rk.topic_blacklist mdt.topic then
    ⟨w, [], -1, false⟩
  else if mdt.err = .leaderNotAvailable ∧ mdt.partitions.length = 0 then
    ⟨w, [], -1, false⟩
  else
    match rd_kafka_topic_find w mdt.topic with
    | none => ⟨w, [], -1, false⟩
    | some rkt =>
      let r := rd_kafka_topic_metadata_update0 w.rk pf rkt mdt now
      ⟨{ w with rk_topics := replace_topic mdt.topic r.rkt w.rk_topics },
       r.dr, r.ret, r.query_leader⟩

/-- The stale-metadata check of `rd_kafka_topic_scan_all` for one topic
(source lines 884–895): when the state is not `Unknown`, the refresh
interval is nonnegative and the clock has passed `ts_metadata` by more
than three times the refresh interval (milliseconds scaled to the
microsecond clock), transition to `Unknown`.  The scan's clock
(`rd_clock()`) is the single clock value `now`. -/
def rd_kafka_topic_scan_stale (rk : Client) (t : Topic) (now : Int) : Topic :=
  if t.rkt_state ≠ .sUnknown ∧ 0 ≤ rk.metadata_refresh_interval_ms ∧
     t.rkt_ts_metadata + rk.metadata_refresh_interval_ms * 1000 * 3 < now then
    rd_kafka_topic_set_state t .sUnknown
  else t

/-! ## Basic lemmas about the helpers -/

theorem modify_idx_length (f : α → α) (l : List α) (i : Nat) :
    (modify_idx f l i).length = l.length := by
  induction l generalizing i with
  | nil => rfl
  | cons x xs ih =>
    cases i with
    | zero => rfl
    | succ n => simp [modify_idx, ih]

theorem modify_idx_map (f : α → α) (g : α → β) (hg : ∀ a, g (f a) = g a)
    (l : List α) (i : Nat) : (modify_idx f l i).map g = l.map g := by
  induction l generalizing i with
  | nil => rfl
  | cons x xs ih =>
    cases i with
    | zero => simp [modify_idx, hg]
    | succ n => simp [modify_idx, ih]

theorem list_set_self (l : List α) (i : Nat) (x : α)
    (h : l[i]? = some x) : l.set i x = l := by
  induction l generalizing i with
  | nil => simp at h
  | cons y ys ih =>
    cases i with
    | zero => simp at h; simp [List.set, h]
    | succ n => simp at h; simp [List.set, ih n h]

theorem cnt_update_build_length (old : List Toppar) (desp : List Toppar)
    (i k : Nat) : (cnt_update_build old desp i k).1.length = k := by
  induction k generalizing desp i with
  | zero => rfl
  | succ n ih => simp [cnt_update_build, ih]

/-! ## Preservation lemmas for the pipeline components -/

theorem route_msg_state (t : Topic) (i : Nat) (m : Msg) :
    (route_msg t i m).rkt_state = t.rkt_state := rfl

theorem route_msg_desp (t : Topic) (i : Nat) (m : Msg) :
    (route_msg t i m).rkt_desp = t.rkt_desp := rfl

theorem route_msg_leaders (t : Topic) (i : Nat) (m : Msg) :
    (route_msg t i m).rkt_p.map Toppar.rktp_leader =
      t.rkt_p.map Toppar.rktp_leader := by
  simpa [route_msg] using
    modify_idx_map (fun p => { p with rktp_msgq := p.rktp_msgq ++ [m] })
      Toppar.rktp_leader (fun a => rfl) t.rkt_p i

theorem assign_uas_loop_state (pf : PartitionerFn) (ms : List Msg) :
    ∀ t : Topic, ((assign_uas_loop pf t ms).1).rkt_state = t.rkt_state := by
  induction ms with
  | nil => intro t; rfl
  | cons m ms ih =>
    intro t
    by_cases h : assign_uas_fastfail t m
    · simp [assign_uas_loop, h, ih t]
    · simp only [assign_uas_loop, if_neg h]
      cases hpf : pf t m with
      | some i => simpa [hpf, route_msg_state] using ih (route_msg t i m)
      | none => simp [hpf, ih t]

theorem assign_uas_loop_desp (pf : PartitionerFn) (ms : List Msg) :
    ∀ t : Topic, ((assign_uas_loop pf t ms).1).rkt_desp = t.rkt_desp := by
  induction ms with
  | nil => intro t; rfl
  | cons m ms ih =>
    intro t
    by_cases h : assign_uas_fastfail t m
    · simp [assign_uas_loop, h, ih t]
    · simp only [assign_uas_loop, if_neg h]
      cases hpf : pf t m with
      | some i => simpa [hpf, route_msg_desp] using ih (route_msg t i m)
      | none => simp [hpf, ih t]

theorem assign_uas_loop_leaders (pf : PartitionerFn) (ms : List Msg) :
    ∀ t : Topic, ((assign_uas_loop pf t ms).1).rkt_p.map Toppar.rktp_leader =
      t.rkt_p.map Toppar.rktp_leader := by
  induction ms with
  | nil => intro t; rfl
  | cons m ms ih =>
    intro t
    by_cases h : assign_uas_fastfail t m
    · simp [assign_uas_loop, h, ih t]
    · simp only [assign_uas_loop, if_neg h]
      cases hpf : pf t m with
      | some i =>
        simpa [hpf, route_msg_leaders] using ih (route_msg t i m)
      | none => simp [hpf, ih t]

theorem assign_uas_state (rk : Client) (pf : PartitionerFn) (t : Topic) :
    ((rd_kafka_topic_assign_uas rk pf t).1).rkt_state = t.rkt_state := by
  unfold rd_kafka_topic_assign_uas
  by_cases h : rk.rk_type ≠ ClientType.producer
  · simp [h]
  · simp only [if_neg h]
    exact assign_uas_loop_state pf t.rkt_ua.rktp_msgq _

theorem assign_uas_desp (rk : Client) (pf : PartitionerFn) (t : Topic) :
    ((rd_kafka_topic_assign_uas rk pf t).1).rkt_desp = t.rkt_desp := by
  unfold rd_kafka_topic_assign_uas
  by_cases h : rk.rk_type ≠ ClientType.producer
  · simp [h]
  · simp only [if_neg h]
    exact assign_uas_loop_desp pf t.rkt_ua.rktp_msgq _

theorem assign_uas_leaders (rk : Client) (pf : PartitionerFn) (t : Topic) :
    ((rd_kafka_topic_assign_uas rk pf t).1).rkt_p.map Toppar.rktp_leader =
      t.rkt_p.map Toppar.rktp_leader := by
  unfold rd_kafka_topic_assign_uas
  by_cases h : rk.rk_type ≠ ClientType.producer
  · simp [h]
  · simp only [if_neg h]
    exact assign_uas_loop_leaders pf t.rkt_ua.rktp_msgq _

theorem assign_uas_length (rk : Client) (pf : PartitionerFn) (t : Topic) :
    ((rd_kafka_topic_assign_uas rk pf t).1).rkt_p.length = t.rkt_p.length := by
  have h := congrArg List.length (assign_uas_leaders rk pf t)
  simpa using h

theorem propagate_notexists_state (rk : Client) (t : Topic) :
    (rd_kafka_topic_propagate_notexists rk t).rkt_state = t.rkt_state := by
  unfold rd_kafka_topic_propagate_notexists
  split <;> rfl

theorem propagate_notexists_p (rk : Client) (t : Topic) :
    (rd_kafka_topic_propagate_notexists rk t).rkt_p = t.rkt_p := by
  unfold rd_kafka_topic_propagate_notexists
  split <;> rfl

/-! ## Lemmas about the leader updater -/

theorem leader_update_state (t : Topic) (p : Int) (lid : NodeId)
    (b : Option NodeId) :
    ((rd_kafka_topic_leader_update t p lid b).1).rkt_state = t.rkt_state := by
  unfold rd_kafka_topic_leader_update
  split
  · rfl
  · split
    · unfold topic_put; split <;> rfl
    · split
      · rfl
      · unfold topic_put; split <;> rfl

theorem leader_update_desp (t : Topic) (p : Int) (lid : NodeId)
    (b : Option NodeId) :
    ((rd_kafka_topic_leader_update t p lid b).1).rkt_desp = t.rkt_desp := by
  unfold rd_kafka_topic_leader_update
  split
  · rfl
  · split
    · unfold topic_put; split <;> rfl
    · split
      · rfl
      · unfold topic_put; split <;> rfl

theorem leader_update_length (t : Topic) (p : Int) (lid : NodeId)
    (b : Option NodeId) :
    ((rd_kafka_topic_leader_update t p lid b).1).rkt_p.length =
      t.rkt_p.length := by
  unfold rd_kafka_topic_leader_update
  split
  · rfl
  · split
    · unfold topic_put; split <;> simp
    · split
      · rfl
      · unfold topic_put; split <;> simp

theorem leader_update_neg (t : Topic) (p : Int) (lid : NodeId)
    (b : Option NodeId) (hp : p < 0) :
    ((rd_kafka_topic_leader_update t p lid b).1).rkt_p = t.rkt_p := by
  have hp' : ¬ (0 ≤ p) := by omega
  unfold rd_kafka_topic_leader_update
  split
  · rfl
  · split
    · unfold topic_put; simp [hp']
    · split
      · rfl
      · unfold topic_put; simp [hp']

theorem leader_update_frame (t : Topic) (p : Int) (lid : NodeId)
    (b : Option NodeId) (j : Nat) (hp : 0 ≤ p) (hj : p.toNat ≠ j) :
    ((rd_kafka_topic_leader_update t p lid b).1).rkt_p[j]? =
      t.rkt_p[j]? := by
  unfold rd_kafka_topic_leader_update
  split
  · rfl
  · split
    · unfold topic_put
      simp [hp, List.getElem?_set_ne hj]
    · split
      · rfl
      · unfold topic_put
        simp [hp, List.getElem?_set_ne hj]

theorem toppar_get_nonneg (t : Topic) (p : Int) (hp : 0 ≤ p) :
    rd_kafka_toppar_get t p = t.rkt_p[p.toNat]? := by
  simp [rd_kafka_toppar_get, hp]

theorem leader_update_sets (t : Topic) (p : Int) (lid : NodeId)
    (b : Option NodeId) (s : Toppar) (hp : 0 ≤ p)
    (h : t.rkt_p[p.toNat]? = some s) :
    ((rd_kafka_topic_leader_update t p lid b).1).rkt_p[p.toNat]? =
      some (rd_kafka_toppar_broker_delegate s b) := by
  have hlt : p.toNat < t.rkt_p.length := by
    rcases List.getElem?_eq_some_iff.mp h with ⟨hl, -⟩
    exact hl
  have hget : rd_kafka_toppar_get t p = some s := by
    rw [toppar_get_nonneg t p hp, h]
  unfold rd_kafka_topic_leader_update
  rw [hget]
  cases b with
  | none =>
    simp only [topic_put, if_pos hp]
    exact List.getElem?_set_eq_of_lt _ hlt
  | some v =>
    by_cases hv : s.rktp_leader = some v
    · simp only [if_pos hv]
      have : rd_kafka_toppar_broker_delegate s (some v) = s := by
        cases s
        simp_all [rd_kafka_toppar_broker_delegate]
      rw [this]
      exact h
    · simp only [if_neg hv, topic_put, if_pos hp]
      exact List.getElem?_set_eq_of_lt _ hlt

theorem leader_update_noop (t : Topic) (p : Int) (lid : NodeId)
    (b : Option NodeId) (s : Toppar) (hp : 0 ≤ p)
    (h : t.rkt_p[p.toNat]? = some s) (hb : s.rktp_leader = b) :
    rd_kafka_topic_leader_update t p lid b = (t, 0) := by
  have hget : rd_kafka_toppar_get t p = some s := by
    rw [toppar_get_nonneg t p hp, h]
  unfold rd_kafka_topic_leader_update
  rw [hget]
  cases b with
  | none =>
    have hdel : rd_kafka_toppar_broker_delegate s none = s := by
      cases s
      simp_all [rd_kafka_toppar_broker_delegate]
    simp only [hb, Option.isSome_none, topic_put, if_pos hp, hdel,
      list_set_self t.rkt_p p.toNat s h]
    rfl
  | some v =>
    simp [hb]

/-! ## Lemmas about the leader-update loop -/

theorem leader_update_loop_state (ps : List (MetadataPartition × Option NodeId)) :
    ∀ t : Topic, ((leader_update_loop t ps).1).rkt_state = t.rkt_state := by
  induction ps with
  | nil => intro t; rfl
  | cons hd rest ih =>
    intro t
    obtain ⟨mp, b⟩ := hd
    simp only [leader_update_loop]
    rw [ih]
    exact leader_update_state t mp.id mp.leader b

theorem leader_update_loop_desp (ps : List (MetadataPartition × Option NodeId)) :
    ∀ t : Topic, ((leader_update_loop t ps).1).rkt_desp = t.rkt_desp := by
  induction ps with
  | nil => intro t; rfl
  | cons hd rest ih =>
    intro t
    obtain ⟨mp, b⟩ := hd
    simp only [leader_update_loop]
    rw [ih]
    exact leader_update_desp t mp.id mp.leader b

theorem leader_update_loop_length (ps : List (MetadataPartition × Option NodeId)) :
    ∀ t : Topic, ((leader_update_loop t ps).1).rkt_p.length = t.rkt_p.length := by
  induction ps with
  | nil => intro t; rfl
  | cons hd rest ih =>
    intro t
    obtain ⟨mp, b⟩ := hd
    simp only [leader_update_loop]
    rw [ih]
    exact leader_update_length t mp.id mp.leader b

theorem leader_update_loop_frame (ps : List (MetadataPartition × Option NodeId))
    (j : Nat) :
    ∀ t : Topic, (∀ pb ∈ ps, 0 ≤ pb.1.id → pb.1.id.toNat ≠ j) →
    ((leader_update_loop t ps).1).rkt_p[j]? = t.rkt_p[j]? := by
  induction ps with
  | nil => intro t _; rfl
  | cons hd rest ih =>
    intro t hps
    obtain ⟨mp, b⟩ := hd
    simp only [leader_update_loop]
    rw [ih _ (fun pb hpb => hps pb (List.mem_cons_of_mem _ hpb))]
    by_cases hmp : 0 ≤ mp.id
    · exact leader_update_frame t mp.id mp.leader b j hmp
        (hps (mp, b) (List.mem_cons_self _ _) hmp)
    · rw [leader_update_neg t mp.id mp.leader b (by omega)]

theorem leader_update_loop_sets (ps : List (MetadataPartition × Option NodeId)) :
    ∀ t : Topic,
    (∀ pb ∈ ps, 0 ≤ pb.1.id ∧ pb.1.id.toNat < t.rkt_p.length) →
    (ps.map (fun pb => pb.1.id)).Nodup →
    ∀ pb ∈ ps, ∃ s : Toppar,
      ((leader_update_loop t ps).1).rkt_p[pb.1.id.toNat]? = some s ∧
      s.rktp_leader = pb.2 := by
  induction ps with
  | nil => intro t _ _ pb hpb; simp at hpb
  | cons hd rest ih =>
    intro t hrange hnd pb hpb
    obtain ⟨mp, b⟩ := hd
    have hmp : 0 ≤ mp.id ∧ mp.id.toNat < t.rkt_p.length := by
      simpa using hrange (mp, b) (List.mem_cons_self _ _)
    obtain ⟨hmp1, hmp2⟩ := hmp
    rcases List.mem_cons.mp hpb with hpb | hpb
    · subst hpb
      -- the head entry: its slot is written by the first update and
      -- survives the remainder of the loop
      have hs0 : t.rkt_p[mp.id.toNat]? = some (t.rkt_p.get ⟨mp.id.toNat, hmp2⟩) :=
        List.getElem?_eq_getElem hmp2
      have hset := leader_update_sets t mp.id mp.leader b _ hmp1 hs0
      rw [List.map_cons] at hnd
      have hnot := (List.nodup_cons.mp hnd).1
      have hframe : ∀ pb' ∈ rest, 0 ≤ pb'.1.id → pb'.1.id.toNat ≠ mp.id.toNat := by
        intro pb' hpb' hpb'0 heq
        have hid : pb'.1.id = mp.id := by omega
        exact hnot (hid ▸ List.mem_map_of_mem (fun pb => pb.1.id) hpb')
      simp only [leader_update_loop]
      refine ⟨rd_kafka_toppar_broker_delegate (t.rkt_p.get ⟨mp.id.toNat, hmp2⟩) b,
        ?_, rfl⟩
      rw [leader_update_loop_frame rest mp.id.toNat _ hframe, hset]
    · -- an entry of the tail: apply the induction hypothesis after the
      -- head's update
      simp only [leader_update_loop]
      refine ih _ ?_ (List.Nodup.of_cons hnd) pb hpb
      intro pb' hpb'
      have h := hrange pb' (List.mem_cons_of_mem _ hpb')
      refine ⟨h.1, ?_⟩
      rw [leader_update_length]
      exact h.2

theorem leader_update_loop_noop (ps : List (MetadataPartition × Option NodeId)) :
    ∀ t : Topic,
    (∀ pb ∈ ps, 0 ≤ pb.1.id ∧ ∃ s : Toppar,
      t.rkt_p[pb.1.id.toNat]? = some s ∧ s.rktp_leader = pb.2) →
    leader_update_loop t ps = (t, 0, false) := by
  induction ps with
  | nil => intro t _; rfl
  | cons hd rest ih =>
    intro t hps
    obtain ⟨mp, b⟩ := hd
    obtain ⟨hmp0, s, hs, hb⟩ := hps (mp, b) (List.mem_cons_self _ _)
    have hnoop := leader_update_noop t mp.id mp.leader b s hmp0 hs hb
    simp only [leader_update_loop, hnoop]
    rw [ih t (fun pb hpb => hps pb (List.mem_cons_of_mem _ hpb))]
    simp

/-! ## Lemmas about the partition-count reconciler -/

theorem cnt_update_length (rk : Client) (t : Topic) (n : Nat) :
    ((rd_kafka_topic_partition_cnt_update rk t n).1).rkt_p.length = n := by
  unfold rd_kafka_topic_partition_cnt_update
  split
  · simpa using by assumption
  · simpa using cnt_update_build_length t.rkt_p t.rkt_desp 0 n

theorem cnt_update_state (rk : Client) (t : Topic) (n : Nat) :
    ((rd_kafka_topic_partition_cnt_update rk t n).1).rkt_state =
      t.rkt_state := by
  unfold rd_kafka_topic_partition_cnt_update
  split <;> rfl

theorem cnt_update_fast (rk : Client) (t : Topic) (n : Nat)
    (h : t.rkt_p.length = n) :
    rd_kafka_topic_partition_cnt_update rk t n = (t, 0) := by
  unfold rd_kafka_topic_partition_cnt_update
  rw [if_pos h]

/-! ## Stage lemmas for the metadata-update pipeline -/

theorem md_update_state_state (rkt : Topic) (mdt : MetadataTopic) (now : Int) :
    (md_update_state rkt mdt now).rkt_state =
      (if mdt.err = .unknownTopicOrPart ∨ mdt.err = .unknown then .sNotExists
       else if 0 < mdt.partitions.length then .sExists
       else rkt.rkt_state) := by
  unfold md_update_state
  split
  · rfl
  · split <;> rfl

theorem md_update_state_p (rkt : Topic) (mdt : MetadataTopic) (now : Int) :
    (md_update_state rkt mdt now).rkt_p = rkt.rkt_p := by
  unfold md_update_state
  split
  · rfl
  · split <;> rfl

theorem md_update_state_desp (rkt : Topic) (mdt : MetadataTopic) (now : Int) :
    (md_update_state rkt mdt now).rkt_desp = rkt.rkt_desp := by
  unfold md_update_state
  split
  · rfl
  · split <;> rfl

theorem md_update_state_ua (rkt : Topic) (mdt : MetadataTopic) (now : Int) :
    (md_update_state rkt mdt now).rkt_ua = rkt.rkt_ua := by
  unfold md_update_state
  split
  · rfl
  · split <;> rfl

theorem md_update_cnt_state (rk : Client) (t : Topic) (mdt : MetadataTopic) :
    ((md_update_cnt rk t mdt).1).rkt_state = t.rkt_state := by
  unfold md_update_cnt
  split
  · exact cnt_update_state rk t mdt.partitions.length
  · rfl

theorem md_update_cnt_length (rk : Client) (t : Topic) (mdt : MetadataTopic) :
    ((md_update_cnt rk t mdt).1).rkt_p.length =
      (if mdt.err = .noError then mdt.partitions.length
       else t.rkt_p.length) := by
  unfold md_update_cnt
  split
  · exact cnt_update_length rk t mdt.partitions.length
  · rfl

theorem md_update_cnt_skip (rk : Client) (t : Topic) (mdt : MetadataTopic)
    (h : mdt.err ≠ .noError) : md_update_cnt rk t mdt = (t, 0) := by
  unfold md_update_cnt
  rw [if_neg h]

theorem md_clear_leaders_state (t : Topic) (mdt : MetadataTopic) :
    (md_clear_leaders t mdt).rkt_state = t.rkt_state := by
  unfold md_clear_leaders
  split <;> rfl

theorem md_clear_leaders_desp (t : Topic) (mdt : MetadataTopic) :
    (md_clear_leaders t mdt).rkt_desp = t.rkt_desp := by
  unfold md_clear_leaders
  split <;> rfl

theorem md_clear_leaders_length (t : Topic) (mdt : MetadataTopic) :
    (md_clear_leaders t mdt).rkt_p.length = t.rkt_p.length := by
  unfold md_clear_leaders
  split <;> simp

theorem md_clear_leaders_noerr (t : Topic) (mdt : MetadataTopic)
    (h : mdt.err = .noError) : md_clear_leaders t mdt = t := by
  unfold md_clear_leaders
  rw [if_neg]
  simp [h]

theorem md_flush_state (rk : Client) (pf : PartitionerFn) (upd : Int)
    (t : Topic) : ((md_flush rk pf upd t).1).rkt_state = t.rkt_state := by
  unfold md_flush
  split
  · exact assign_uas_state rk pf t
  · rfl

theorem md_flush_desp (rk : Client) (pf : PartitionerFn) (upd : Int)
    (t : Topic) : ((md_flush rk pf upd t).1).rkt_desp = t.rkt_desp := by
  unfold md_flush
  split
  · exact assign_uas_desp rk pf t
  · rfl

theorem md_flush_length (rk : Client) (pf : PartitionerFn) (upd : Int)
    (t : Topic) : ((md_flush rk pf upd t).1).rkt_p.length = t.rkt_p.length := by
  unfold md_flush
  split
  · exact assign_uas_length rk pf t
  · rfl

theorem md_flush_leaders (rk : Client) (pf : PartitionerFn) (upd : Int)
    (t : Topic) : ((md_flush rk pf upd t).1).rkt_p.map Toppar.rktp_leader =
      t.rkt_p.map Toppar.rktp_leader := by
  unfold md_flush
  split
  · exact assign_uas_leaders rk pf t
  · rfl

theorem md_propagate_state (rk : Client) (old : TopicState) (t : Topic) :
    (md_propagate rk old t).rkt_state = t.rkt_state := by
  unfold md_propagate
  split
  · exact propagate_notexists_state rk t
  · rfl

theorem md_propagate_p (rk : Client) (old : TopicState) (t : Topic) :
    (md_propagate rk old t).rkt_p = t.rkt_p := by
  unfold md_propagate
  split
  · exact propagate_notexists_p rk t
  · rfl

/-! ## Master lemmas about one metadata application -/

theorem update0_state (rk : Client) (pf : PartitionerFn) (rkt : Topic)
    (mdt : MetadataTopic) (now : Int) (h : rk.rk_terminate = false) :
    ((rd_kafka_topic_metadata_update0 rk pf rkt mdt now).rkt).rkt_state =
      (if mdt.err = .unknownTopicOrPart ∨ mdt.err = .unknown then .sNotExists
       else if 0 < mdt.partitions.length then .sExists
       else rkt.rkt_state) := by
  simp only [rd_kafka_topic_metadata_update0, h, Bool.false_eq_true, if_false]
  rw [md_propagate_state, md_flush_state, md_clear_leaders_state,
    leader_update_loop_state, md_update_cnt_state, md_update_state_state]

theorem update0_length (rk : Client) (pf : PartitionerFn) (rkt : Topic)
    (mdt : MetadataTopic) (now : Int) (h : rk.rk_terminate = false) :
    ((rd_kafka_topic_metadata_update0 rk pf rkt mdt now).rkt).rkt_p.length =
      (if mdt.err = .noError then mdt.partitions.length
       else rkt.rkt_p.length) := by
  simp only [rd_kafka_topic_metadata_update0, h, Bool.false_eq_true, if_false]
  rw [show ∀ y : Topic, (md_propagate rk rkt.rkt_state y).rkt_p.length =
        y.rkt_p.length from fun y => by rw [md_propagate_p]]
  rw [md_flush_length, md_clear_leaders_length, leader_update_loop_length,
    md_update_cnt_length, md_update_state_p]

theorem replace_topic_self (nm : Name) (t : Topic) :
    ∀ ts : List Topic, ts.find? (fun x => x.rkt_topic == nm) = some t →
    replace_topic nm t ts = ts := by
  intro ts
  induction ts with
  | nil => intro h; simp at h
  | cons x xs ih =>
    intro h
    rw [List.find?_cons] at h
    by_cases hx : (x.rkt_topic == nm) = true
    · rw [hx] at h
      simp only [Option.some_inj] at h
      unfold replace_topic
      rw [if_pos hx, h]
    · have hx' : (x.rkt_topic == nm) = false := by simpa using hx
      rw [hx'] at h
      unfold replace_topic
      rw [if_neg hx, ih h]

/-! ## Claims -/

/-- C2 counterexample: the claim says a missing **or empty** name fails
with `InvalidArgument`, but the source only checks `!topic ||
strlen(topic) > 512`, so the empty (zero-length, non-null) name is
accepted and a handle is returned. -/
theorem claim_C2_counterexample :
    (rd_kafka_topic_new0 ⟨⟨.producer, false, [], [], 0, none⟩, []⟩
      (some []) none).isSome = true := by decide

/-- C2 (amended): `rd_kafka_topic_new0` fails with `InvalidArgument`
exactly for a missing (null) name or a name longer than 512 bytes;
every present name of length at most 512 bytes — including the empty
name — is accepted. -/
theorem claim_C2_name_validation (w : World) (conf : Option TopicConf) :
    rd_kafka_topic_new0 w none conf = none ∧
    ∀ nm : Name, (rd_kafka_topic_new0 w (some nm) conf).isSome =
      decide (nm.length ≤ 512) := by
  refine ⟨rfl, ?_⟩
  intro nm
  simp only [rd_kafka_topic_new0]
  by_cases h : nm.length > 512
  · rw [if_pos h]
    have hn : ¬ nm.length ≤ 512 := by omega
    simp [hn]
  · rw [if_neg h]
    have hy : nm.length ≤ 512 := by omega
    cases hf : rd_kafka_topic_find w nm <;> simp [hy]

set_option maxRecDepth 8192 in
/-- C2 witness: the boundary names of length 512 and 513. -/
theorem claim_C2_witness :
    (rd_kafka_topic_new0 ⟨⟨.producer, false, [], [], 0, none⟩, []⟩
      (some (List.replicate 512 97)) none).isSome = true ∧
    (rd_kafka_topic_new0 ⟨⟨.producer, false, [], [], 0, none⟩, []⟩
      (some (List.replicate 513 97)) none).isSome = false := by
  have h₁ := (claim_C2_name_validation ⟨⟨.producer, false, [], [], 0, none⟩, []⟩
    none).2 (List.replicate 512 97)
  have h₂ := (claim_C2_name_validation ⟨⟨.producer, false, [], [], 0, none⟩, []⟩
    none).2 (List.replicate 513 97)
  refine ⟨?_, ?_⟩
  · rw [h₁]; simp
  · rw [h₂]; simp

/-- C4: for a partition id present in the partitions array, the leader
update with no broker handle clears the delegation and returns
`LeaderUnknown` (`-1`) exactly when a leader was previously delegated,
else `NoChange` (`0`). -/
theorem claim_C4_leader_update_none (t : Topic) (i : Int) (lid : NodeId)
    (s : Toppar) (hi : 0 ≤ i) (hs : t.rkt_p[i.toNat]? = some s) :
    (rd_kafka_topic_leader_update t i lid none).2 =
      (if s.rktp_leader.isSome then -1 else 0) ∧
    ((rd_kafka_topic_leader_update t i lid none).1).rkt_p[i.toNat]? =
      some { s with rktp_leader := none } := by
  have hget : rd_kafka_toppar_get t i = some s := by
    rw [toppar_get_nonneg t i hi, hs]
  constructor
  · unfold rd_kafka_topic_leader_update
    rw [hget]
  · exact leader_update_sets t i lid none s hi hs

/-- C4 witness: a two-partition topic; partition 0 has a delegated
leader (broker 7) and is cleared with return `-1`; partition 1 has no
leader and returns `0`. -/
theorem claim_C4_witness :
    ((rd_kafka_topic_leader_update
        ⟨[116], .sExists, [⟨0, some 7, false, false, [], []⟩,
          ⟨1, none, false, false, [], []⟩],
         ⟨-1, none, false, false, [], []⟩, [], 0, ⟨0⟩⟩ 0 (-1) none).2 = -1 ∧
     ((rd_kafka_topic_leader_update
        ⟨[116], .sExists, [⟨0, some 7, false, false, [], []⟩,
          ⟨1, none, false, false, [], []⟩],
         ⟨-1, none, false, false, [], []⟩, [], 0, ⟨0⟩⟩ 0 (-1) none).1).rkt_p[0]? =
       some ⟨0, none, false, false, [], []⟩) ∧
    (rd_kafka_topic_leader_update
        ⟨[116], .sExists, [⟨0, some 7, false, false, [], []⟩,
          ⟨1, none, false, false, [], []⟩],
         ⟨-1, none, false, false, [], []⟩, [], 0, ⟨0⟩⟩ 1 (-1) none).2 = 0 := by
  have h0 := claim_C4_leader_update_none
    ⟨[116], .sExists, [⟨0, some 7, false, false, [], []⟩,
      ⟨1, none, false, false, [], []⟩],
     ⟨-1, none, false, false, [], []⟩, [], 0, ⟨0⟩⟩ 0 (-1)
    ⟨0, some 7, false, false, [], []⟩ (by decide) (by decide)
  have h1 := claim_C4_leader_update_none
    ⟨[116], .sExists, [⟨0, some 7, false, false, [], []⟩,
      ⟨1, none, false, false, [], []⟩],
     ⟨-1, none, false, false, [], []⟩, [], 0, ⟨0⟩⟩ 1 (-1)
    ⟨1, none, false, false, [], []⟩ (by decide) (by decide)
  exact ⟨⟨h0.1, h0.2⟩, h1.1⟩

/-- C5: a `LeaderNotAvailable` metadata record with zero partitions is
treated as transient: `rd_kafka_topic_metadata_update` returns `-1`
(`LeaderUnknown`) and leaves the registry and every topic entirely
unchanged, with no delivery reports and no leader query. -/
theorem claim_C5_transient (w : World) (pf : PartitionerFn)
    (mdt : MetadataTopic) (now : Int) (herr : mdt.err = .leaderNotAvailable)
    (hparts : mdt.partitions = []) :
    rd_kafka_topic_metadata_update w pf mdt now = ⟨w, [], -1, false⟩ := by
  unfold rd_kafka_topic_metadata_update
  split
  · rfl
  · rw [if_pos ⟨herr, by simp [hparts]⟩]

/-- C5 witness: the `"orders"` topic at state `Exists` with two
partitions. -/
theorem claim_C5_witness :
    rd_kafka_topic_metadata_update
      ⟨⟨.producer, false, [1, 2], [], 0, none⟩,
       [⟨[111], .sExists, [⟨0, some 1, false, false, [], []⟩,
          ⟨1, some 2, false, false, [], []⟩],
         ⟨-1, none, false, false, [], []⟩, [], 0, ⟨0⟩⟩]⟩
      (fun _ _ => none) ⟨[111], .leaderNotAvailable, []⟩ 7 =
    ⟨⟨⟨.producer, false, [1, 2], [], 0, none⟩,
       [⟨[111], .sExists, [⟨0, some 1, false, false, [], []⟩,
          ⟨1, some 2, false, false, [], []⟩],
         ⟨-1, none, false, false, [], []⟩, [], 0, ⟨0⟩⟩]⟩, [], -1, false⟩ :=
  claim_C5_transient _ _ _ _ rfl rfl

/-- C9: when `rd_kafka_topic_new0` finds the name already registered it
returns the existing topic entity with `existing = true` and discards
the caller-supplied configuration: the registry — hence the existing
topic and all of its fields, configuration included — is returned
unchanged. -/
theorem claim_C9_existing (w : World) (nm : Name) (conf : Option TopicConf)
    (rkt : Topic) (hlen : nm.length ≤ 512)
    (hf : rd_kafka_topic_find w nm = some rkt) :
    rd_kafka_topic_new0 w (some nm) conf = some (w, rkt, true) := by
  simp only [rd_kafka_topic_new0]
  rw [if_neg (by omega), hf]

/-- C9 witness: re-creating topic `"a"` with a different configuration
(token 7) returns the registered entity (configuration token 3) and the
unchanged registry. -/
theorem claim_C9_witness :
    rd_kafka_topic_new0
      ⟨⟨.producer, false, [], [], 0, none⟩,
       [⟨[97], .sUnknown, [], ⟨-1, none, false, false, [], []⟩, [], 0, ⟨3⟩⟩]⟩
      (some [97]) (some ⟨7⟩) =
    some (⟨⟨.producer, false, [], [], 0, none⟩,
       [⟨[97], .sUnknown, [], ⟨-1, none, false, false, [], []⟩, [], 0, ⟨3⟩⟩]⟩,
      ⟨[97], .sUnknown, [], ⟨-1, none, false, false, [], []⟩, [], 0, ⟨3⟩⟩,
      true) :=
  claim_C9_existing _ _ _ _ (by decide) (by decide)

/-- C10: when the client's terminating flag is set,
`rd_kafka_topic_metadata_update` returns `-1` (`LeaderUnknown`) and
leaves the registry and every topic unchanged — no state transition, no
`ts_metadata` update, no partition-count change, no delegation change,
no delivery reports. -/
theorem claim_C10_terminating (w : World) (pf : PartitionerFn)
    (mdt : MetadataTopic) (now : Int) (h : w.rk.rk_terminate = true) :
    rd_kafka_topic_metadata_update w pf mdt now = ⟨w, [], -1, false⟩ := by
  unfold rd_kafka_topic_metadata_update
  split
  · rfl
  · split
    · rfl
    · split
      · rfl
      · rename_i rkt heq
        simp only [rd_kafka_topic_metadata_update0, h, if_true]
        rw [replace_topic_self mdt.topic rkt w.rk_topics heq]

/-- C10 witness: a terminating client holding the `"orders"` topic. -/
theorem claim_C10_witness :
    rd_kafka_topic_metadata_update
      ⟨⟨.producer, true, [1], [], 0, none⟩,
       [⟨[111], .sExists, [⟨0, some 1, false, false, [], []⟩],
         ⟨-1, none, false, false, [], []⟩, [], 0, ⟨0⟩⟩]⟩
      (fun _ _ => none) ⟨[111], .noError, [⟨0, 1⟩]⟩ 7 =
    ⟨⟨⟨.producer, true, [1], [], 0, none⟩,
       [⟨[111], .sExists, [⟨0, some 1, false, false, [], []⟩],
         ⟨-1, none, false, false, [], []⟩, [], 0, ⟨0⟩⟩]⟩, [], -1, false⟩ :=
  claim_C10_terminating _ _ _ _ rfl

/-- C8: the scanner's staleness step transitions a topic to `Unknown`
iff the state is not already `Unknown`, the metadata refresh interval is
nonnegative, and the clock has passed `ts_metadata` by more than three
times the refresh interval (the interval is configured in milliseconds
and scaled by 1000 to the microsecond clock); a topic already `Unknown`
is left untouched. -/
theorem claim_C8_scanner (rk : Client) (t : Topic) (now : Int) :
    (t.rkt_state = .sUnknown → rd_kafka_topic_scan_stale rk t now = t) ∧
    (t.rkt_state ≠ .sUnknown →
      ((rd_kafka_topic_scan_stale rk t now).rkt_state = .sUnknown ↔
        0 ≤ rk.metadata_refresh_interval_ms ∧
        3 * (rk.metadata_refresh_interval_ms * 1000) <
          now - t.rkt_ts_metadata)) := by
  constructor
  · intro h
    unfold rd_kafka_topic_scan_stale
    rw [if_neg]
    exact fun hc => hc.1 h
  · intro h
    unfold rd_kafka_topic_scan_stale
    by_cases hc : 0 ≤ rk.metadata_refresh_interval_ms ∧
        t.rkt_ts_metadata + rk.metadata_refresh_interval_ms * 1000 * 3 < now
    · rw [if_pos ⟨h, hc.1, hc.2⟩]
      have h2 := hc.2
      exact ⟨fun _ => ⟨hc.1, by omega⟩, fun _ => rfl⟩
    · rw [if_neg (fun hcon => hc ⟨hcon.2.1, hcon.2.2⟩)]
      constructor
      · intro hst; exact absurd hst h
      · intro hr; exact absurd ⟨hr.1, by omega⟩ hc

/-- C8 witness: refresh interval 1000 ms, `ts_metadata = 0`; at clock
3000001 µs the topic (state `Exists`) transitions to `Unknown`. -/
theorem claim_C8_witness :
    (rd_kafka_topic_scan_stale ⟨.producer, false, [], [], 1000, none⟩
      ⟨[116], .sExists, [], ⟨-1, none, false, false, [], []⟩, [], 0, ⟨0⟩⟩
      3000001).rkt_state = .sUnknown := by
  have h := (claim_C8_scanner ⟨.producer, false, [], [], 1000, none⟩
    ⟨[116], .sExists, [], ⟨-1, none, false, false, [], []⟩, [], 0, ⟨0⟩⟩
    3000001).2 (by decide)
  exact h.mpr (by decide)

/-- C1 counterexample: applying `{err=UnknownTopicOrPart}` through the
metadata-update entry point to the `"o"` topic at state `Exists` with 2
partitions yields state `NotExists` with `partition_cnt` still 2 — the
partition-count reconciliation only runs for `NoError` records, so the
claimed invariant `NotExists ⇒ partition_cnt = 0` fails after this
operation. -/
theorem claim_C1_counterexample :
    ((rd_kafka_topic_metadata_update
      ⟨⟨.producer, false, [1, 2], [], 0, none⟩,
       [⟨[111], .sExists, [⟨0, some 1, false, false, [], []⟩,
          ⟨1, some 2, false, false, [], []⟩],
         ⟨-1, none, false, false, [], []⟩, [], 0, ⟨0⟩⟩]⟩
      (fun _ _ => none) ⟨[111], .unknownTopicOrPart, []⟩ 9).world.rk_topics.map
      (fun t => (t.rkt_state, t.rkt_p.length))) = [(.sNotExists, 2)] := by
  decide

/-- C1 (amended): after one metadata application, the invariant
`state = NotExists ⇒ partition_cnt = 0` holds for every topic whose
partition count was 0 before the operation (in particular the claimed
`UnknownTopicOrPart`-on-`"ghost"` scenario); for a topic that previously
had partitions, an `UnknownTopicOrPart` record sets `NotExists` but
leaves `partition_cnt` at its previous nonzero value. -/
theorem claim_C1_notexists_cnt (rk : Client) (pf : PartitionerFn)
    (rkt : Topic) (mdt : MetadataTopic) (now : Int)
    (hcnt : rkt.rkt_p.length = 0) :
    ((rd_kafka_topic_metadata_update0 rk pf rkt mdt now).rkt).rkt_state =
      .sNotExists →
    ((rd_kafka_topic_metadata_update0 rk pf rkt mdt now).rkt).rkt_p.length =
      0 := by
  intro hst
  by_cases hterm : rk.rk_terminate = true
  · simp only [rd_kafka_topic_metadata_update0, hterm, if_true]
    exact hcnt
  · have h : rk.rk_terminate = false := by simpa using hterm
    rw [update0_length rk pf rkt mdt now h]
    rw [update0_state rk pf rkt mdt now h] at hst
    by_cases herr : mdt.err = .noError
    · rw [if_pos herr]
      rw [if_neg (by simp [herr])] at hst
      by_cases hlen : 0 < mdt.partitions.length
      · rw [if_pos hlen] at hst
        exact absurd hst (by decide)
      · omega
    · rw [if_neg herr]
      exact hcnt

/-- C1 witness: the `"ghost"` scenario — consumer role, no partitions,
two desired partitions, `err=UnknownTopicOrPart`; the partition count
stays 0. -/
theorem claim_C1_witness :
    ((rd_kafka_topic_metadata_update0 ⟨.consumer, false, [], [], 0, none⟩
      (fun _ _ => none)
      ⟨[103], .sUnknown, [], ⟨-1, none, false, false, [], []⟩,
        [⟨0, none, true, true, [], []⟩, ⟨3, none, true, true, [], []⟩], 0, ⟨0⟩⟩
      ⟨[103], .unknownTopicOrPart, []⟩ 5).rkt).rkt_p.length = 0 :=
  claim_C1_notexists_cnt _ _ _ _ _ (by decide) (by decide)

/-- C7: when a metadata application with `err=UnknownTopicOrPart`
transitions a topic into `NotExists`, the notexists propagation enqueues
exactly one `UnknownTopic` error on the notification queue of each
desired partition on consumer-role clients, and enqueues none on
producer-role clients (whose desired list is returned unchanged). -/
theorem claim_C7_notexists_propagation (rk : Client) (pf : PartitionerFn)
    (t : Topic) (mdt : MetadataTopic) (now : Int)
    (hterm : rk.rk_terminate = false)
    (herr : mdt.err = .unknownTopicOrPart ∨ mdt.err = .unknown)
    (hst : t.rkt_state ≠ .sNotExists) :
    ((rd_kafka_topic_metadata_update0 rk pf t mdt now).rkt).rkt_desp =
      (if rk.rk_type = .consumer
       then t.rkt_desp.map (fun p => rd_kafka_toppar_enq_error p .unknownTopic)
       else t.rkt_desp) := by
  simp only [rd_kafka_topic_metadata_update0, hterm, Bool.false_eq_true,
    if_false]
  rw [md_update_cnt_skip rk (md_update_state t mdt now) mdt
    (by rcases herr with h | h <;> simp [h])]
  set t2 := md_update_state t mdt now with ht2
  set L := leader_update_loop t2
    (mdt.partitions.zip (mdt.partitions.map (resolve_leader rk))) with hL
  set t5 := md_clear_leaders L.1 mdt with ht5
  set F := md_flush rk pf ((t2, (0 : Int)).2 + L.2.1) t5 with hF
  have hFs : F.1.rkt_state = .sNotExists := by
    rw [hF, md_flush_state, ht5, md_clear_leaders_state, hL,
      leader_update_loop_state, ht2, md_update_state_state,
      if_pos herr]
  have hFd : F.1.rkt_desp = t.rkt_desp := by
    rw [hF, md_flush_desp, ht5, md_clear_leaders_desp, hL,
      leader_update_loop_desp, ht2, md_update_state_desp]
  unfold md_propagate
  rw [if_pos ⟨by rw [hFs]; exact hst, hFs⟩]
  unfold rd_kafka_topic_propagate_notexists
  by_cases hc : rk.rk_type = .consumer
  · rw [if_neg (by simp [hc]), if_pos hc]
    dsimp only
    rw [hFd]
  · rw [if_pos hc, if_neg hc]
    exact hFd

/-- C7 witness: the `"ghost"` scenario on a consumer — both desired
partitions receive exactly one `UnknownTopic` error. -/
theorem claim_C7_witness :
    ((rd_kafka_topic_metadata_update0 ⟨.consumer, false, [], [], 0, none⟩
      (fun _ _ => none)
      ⟨[103], .sUnknown, [], ⟨-1, none, false, false, [], []⟩,
        [⟨0, none, true, true, [], []⟩, ⟨3, none, true, true, [], []⟩], 0, ⟨0⟩⟩
      ⟨[103], .unknownTopicOrPart, []⟩ 5).rkt).rkt_desp =
      [⟨0, none, true, true, [], [.unknownTopic]⟩,
       ⟨3, none, true, true, [], [.unknownTopic]⟩] := by
  have h := claim_C7_notexists_propagation ⟨.consumer, false, [], [], 0, none⟩
    (fun _ _ => none)
    ⟨[103], .sUnknown, [], ⟨-1, none, false, false, [], []⟩,
      [⟨0, none, true, true, [], []⟩, ⟨3, none, true, true, [], []⟩], 0, ⟨0⟩⟩
    ⟨[103], .unknownTopicOrPart, []⟩ 5 rfl (Or.inl rfl) (by decide)
  rw [h]
  decide

theorem assign_uas_dr (rk : Client) (pf : PartitionerFn) (t : Topic)
    (h : t.rkt_state ≠ .sNotExists) :
    ∀ pr ∈ (rd_kafka_topic_assign_uas rk pf t).2,
      pr.2 = KErr.unknownPartition := by
  unfold rd_kafka_topic_assign_uas
  by_cases hr : rk.rk_type ≠ ClientType.producer
  · rw [if_pos hr]
    intro pr hpr
    simp at hpr
  · rw [if_neg hr]
    intro pr hpr
    simp only [List.mem_map] at hpr
    obtain ⟨m, hm, rfl⟩ := hpr
    have hstate := assign_uas_loop_state pf t.rkt_ua.rktp_msgq
      { t with rkt_ua := { t.rkt_ua with rktp_msgq := [] } }
    dsimp only
    rw [if_neg (by rw [hstate]; exact h)]

theorem md_flush_dr (rk : Client) (pf : PartitionerFn) (upd : Int)
    (t : Topic) (h : t.rkt_state ≠ .sNotExists) :
    ∀ pr ∈ (md_flush rk pf upd t).2, pr.2 = KErr.unknownPartition := by
  unfold md_flush
  split
  · exact assign_uas_dr rk pf t h
  · intro pr hpr
    simp at hpr

/-- C3: for a producer-role topic at state `Exists`, an error-free
metadata record with zero partitions does not transition the state to
`NotExists` (it stays `Exists`), and every message that fails
partitioning in the resulting UA flush is delivered to the
delivery-report sink with `UnknownPartition`, not `UnknownTopic`. -/
theorem claim_C3_noerror_zero_parts (rk : Client) (pf : PartitionerFn)
    (t : Topic) (mdt : MetadataTopic) (now : Int)
    (hrole : rk.rk_type = .producer) (hterm : rk.rk_terminate = false)
    (hst : t.rkt_state = .sExists) (herr : mdt.err = .noError)
    (hparts : mdt.partitions = []) :
    ((rd_kafka_topic_metadata_update0 rk pf t mdt now).rkt).rkt_state =
      .sExists ∧
    ∀ pr ∈ (rd_kafka_topic_metadata_update0 rk pf t mdt now).dr,
      pr.2 = KErr.unknownPartition := by
  constructor
  · rw [update0_state rk pf t mdt now hterm]
    rw [if_neg (by simp [herr]), if_neg (by simp [hparts])]
    exact hst
  · simp only [rd_kafka_topic_metadata_update0, hterm, Bool.false_eq_true,
      if_false]
    set t2 := md_update_state t mdt now with ht2
    set CU := md_update_cnt rk t2 mdt with hcu
    set L := leader_update_loop CU.1
      (mdt.partitions.zip (mdt.partitions.map (resolve_leader rk))) with hL
    set t5 := md_clear_leaders L.1 mdt with ht5
    apply md_flush_dr
    rw [ht5, md_clear_leaders_state, hL, leader_update_loop_state, hcu,
      md_update_cnt_state, ht2, md_update_state_state]
    rw [if_neg (by simp [herr]), if_neg (by simp [hparts]), hst]
    decide

/-- C3 witness: scenario 3 of the spec in miniature — producer topic at
`Exists` with one partition, one UA message with forced partition 5;
after `{err=NoError, partition_cnt=0}` the state is still `Exists` and
the message is failed with `UnknownPartition`. -/
theorem claim_C3_witness :
    ((rd_kafka_topic_metadata_update0 ⟨.producer, false, [], [], 0, none⟩
      (fun _ _ => none)
      ⟨[111], .sExists, [⟨0, none, false, false, [], []⟩],
        ⟨-1, none, false, false, [⟨5, 0⟩], []⟩, [], 0, ⟨0⟩⟩
      ⟨[111], .noError, []⟩ 5).rkt).rkt_state = .sExists ∧
    ((⟨5, 0⟩ : Msg), KErr.unknownPartition).2 = KErr.unknownPartition := by
  have h := claim_C3_noerror_zero_parts ⟨.producer, false, [], [], 0, none⟩
    (fun _ _ => none)
    ⟨[111], .sExists, [⟨0, none, false, false, [], []⟩],
      ⟨-1, none, false, false, [⟨5, 0⟩], []⟩, [], 0, ⟨0⟩⟩
    ⟨[111], .noError, []⟩ 5 rfl rfl rfl rfl rfl
  exact ⟨h.1, h.2 (⟨5, 0⟩, .unknownPartition) (by decide)⟩

/-! ## C6: idempotence of metadata application -/

theorem zip_resolve (rk : Client) (ps : List MetadataPartition) :
    ps.zip (ps.map (resolve_leader rk)) =
      ps.map (fun mp => (mp, resolve_leader rk mp)) := by
  simpa using List.zip_map' id (resolve_leader rk) ps

/-- C6 counterexample: a `NoError` record carrying a partition entry
with an out-of-range id (id 5 while the record reports a single
partition): the per-partition leader update fails with `LeaderUnknown`
on **every** application and that counts as a reported change, so the
second application of the identical record returns 1, not 0. -/
theorem claim_C6_counterexample :
    (rd_kafka_topic_metadata_update
      (rd_kafka_topic_metadata_update
        ⟨⟨.producer, false, [], [], 0, none⟩,
         [⟨[116], .sUnknown, [], ⟨-1, none, false, false, [], []⟩, [], 0, ⟨0⟩⟩]⟩
        (fun _ _ => none) ⟨[116], .noError, [⟨5, -1⟩]⟩ 1).world
      (fun _ _ => none) ⟨[116], .noError, [⟨5, -1⟩]⟩ 2).ret = 1 := by
  decide

/-- After one application of a well-formed `NoError` record (ids in
range and pairwise distinct), every reported partition's slot holds the
pre-resolved leader of its entry. -/
theorem update0_establishes (rk : Client) (pf : PartitionerFn) (t : Topic)
    (mdt : MetadataTopic) (now : Int)
    (hterm : rk.rk_terminate = false) (herr : mdt.err = .noError)
    (hids : ∀ mp ∈ mdt.partitions, 0 ≤ mp.id ∧
      mp.id < (mdt.partitions.length : Int))
    (hnd : (mdt.partitions.map (fun mp => mp.id)).Nodup) :
    ∀ mp ∈ mdt.partitions,
      (((rd_kafka_topic_metadata_update0 rk pf t mdt now).rkt).rkt_p[mp.id.toNat]?).map
        Toppar.rktp_leader = some (resolve_leader rk mp) := by
  intro mp hmp
  simp only [rd_kafka_topic_metadata_update0, hterm, Bool.false_eq_true,
    if_false]
  rw [zip_resolve]
  set t2 := md_update_state t mdt now with ht2
  set CU := md_update_cnt rk t2 mdt with hcu
  set ZP := mdt.partitions.map (fun mp => (mp, resolve_leader rk mp)) with hzp
  set L := leader_update_loop CU.1 ZP with hL
  set t5 := md_clear_leaders L.1 mdt with ht5
  set F := md_flush rk pf (CU.2 + L.2.1) t5 with hF
  have hculen : CU.1.rkt_p.length = mdt.partitions.length := by
    rw [hcu, md_update_cnt_length, if_pos herr]
  have hrange : ∀ pb ∈ ZP, 0 ≤ pb.1.id ∧
      pb.1.id.toNat < CU.1.rkt_p.length := by
    rw [hzp]
    intro pb hpb
    obtain ⟨mp', hmp', rfl⟩ := List.mem_map.mp hpb
    dsimp only
    have h := hids mp' hmp'
    have h1 := h.1
    have h2 := h.2
    refine ⟨h1, ?_⟩
    rw [hculen]
    omega
  have hndz : (ZP.map (fun pb => pb.1.id)).Nodup := by
    rw [hzp, List.map_map]
    simpa [Function.comp] using hnd
  have hsets := leader_update_loop_sets ZP CU.1 hrange hndz
  obtain ⟨s, hsl, hlead⟩ := hsets (mp, resolve_leader rk mp)
    (by rw [hzp]; exact List.mem_map_of_mem _ hmp)
  rw [← hL] at hsl
  have ht5eq : t5 = L.1 := by
    rw [ht5]
    exact md_clear_leaders_noerr L.1 mdt herr
  have hFl : F.1.rkt_p.map Toppar.rktp_leader =
      L.1.rkt_p.map Toppar.rktp_leader := by
    rw [hF, md_flush_leaders, ht5eq]
  rw [md_propagate_p]
  have hidx := congrArg (fun l => l[mp.id.toNat]?) hFl
  simp only [List.getElem?_map] at hidx
  rw [hidx, hsl]
  simp only [Option.map_some']
  rw [hlead]

/-- Applying a well-formed `NoError` record to a topic whose partition
array already agrees with it (right length, every reported slot already
delegated to the entry's resolved leader) reports zero changes and
leaves the partition array untouched. -/
theorem update0_second_noop (rk : Client) (pf : PartitionerFn) (t1 : Topic)
    (mdt : MetadataTopic) (now2 : Int)
    (hterm : rk.rk_terminate = false) (herr : mdt.err = .noError)
    (hids : ∀ mp ∈ mdt.partitions, 0 ≤ mp.id)
    (hlen : t1.rkt_p.length = mdt.partitions.length)
    (hslots : ∀ mp ∈ mdt.partitions,
      (t1.rkt_p[mp.id.toNat]?).map Toppar.rktp_leader =
        some (resolve_leader rk mp)) :
    (rd_kafka_topic_metadata_update0 rk pf t1 mdt now2).ret = 0 ∧
    ((rd_kafka_topic_metadata_update0 rk pf t1 mdt now2).rkt).rkt_p =
      t1.rkt_p := by
  simp only [rd_kafka_topic_metadata_update0, hterm, Bool.false_eq_true,
    if_false]
  rw [zip_resolve]
  set t2 := md_update_state t1 mdt now2 with ht2
  have ht2p : t2.rkt_p = t1.rkt_p := by
    rw [ht2]
    exact md_update_state_p t1 mdt now2
  have hcu : md_update_cnt rk t2 mdt = (t2, 0) := by
    unfold md_update_cnt
    rw [if_pos herr]
    exact cnt_update_fast rk t2 mdt.partitions.length (by rw [ht2p, hlen])
  rw [hcu]
  have hloopnoop : leader_update_loop ((t2, (0 : Int)).1)
      (mdt.partitions.map (fun mp => (mp, resolve_leader rk mp))) =
      (t2, 0, false) := by
    apply leader_update_loop_noop
    intro pb hpb
    obtain ⟨mp', hmp', rfl⟩ := List.mem_map.mp hpb
    refine ⟨hids mp' hmp', ?_⟩
    have hm := hslots mp' hmp'
    rw [← ht2p] at hm
    obtain ⟨s, hs, hsl⟩ := Option.map_eq_some'.mp hm
    exact ⟨s, hs, hsl⟩
  rw [hloopnoop]
  dsimp only
  constructor
  · norm_num
  · rw [md_propagate_p, md_clear_leaders_noerr t2 mdt herr]
    by_cases hN : 0 < mdt.partitions.length
    · have hstate : t2.rkt_state = .sExists := by
        rw [ht2, md_update_state_state, if_neg (by simp [herr]), if_pos hN]
      unfold md_flush
      rw [if_neg (by simp [hstate])]
      exact ht2p
    · have h0 : mdt.partitions.length = 0 := by omega
      have hflen : ((md_flush rk pf ((0 : Int) + 0) t2).1).rkt_p.length = 0 := by
        rw [md_flush_length, ht2p, hlen, h0]
      have ht1nil : t1.rkt_p = [] := by
        rw [← List.length_eq_zero, hlen, h0]
      rw [List.length_eq_zero] at hflen
      rw [hflen, ht1nil]

/-- C6 (amended): metadata application is idempotent for well-formed
records — `err=NoError` with every partition entry's id within
`[0, partition_cnt)` and the ids pairwise distinct: the second
application of the identical record reports 0 changes and leaves the
partition array (hence the partition count and all delegations)
unchanged.  (A record with an out-of-range entry id is excluded: its
leader update reports `LeaderUnknown` on every application, which counts
as a change — see the counterexample.) -/
theorem claim_C6_idempotent (rk : Client) (pf : PartitionerFn) (t : Topic)
    (mdt : MetadataTopic) (now now2 : Int)
    (hterm : rk.rk_terminate = false) (herr : mdt.err = .noError)
    (hids : ∀ mp ∈ mdt.partitions, 0 ≤ mp.id ∧
      mp.id < (mdt.partitions.length : Int))
    (hnd : (mdt.partitions.map (fun mp => mp.id)).Nodup) :
    (rd_kafka_topic_metadata_update0 rk pf
      ((rd_kafka_topic_metadata_update0 rk pf t mdt now).rkt) mdt now2).ret =
      0 ∧
    ((rd_kafka_topic_metadata_update0 rk pf
      ((rd_kafka_topic_metadata_update0 rk pf t mdt now).rkt) mdt now2).rkt).rkt_p =
      ((rd_kafka_topic_metadata_update0 rk pf t mdt now).rkt).rkt_p := by
  have hlen1 : ((rd_kafka_topic_metadata_update0 rk pf t mdt now).rkt).rkt_p.length =
      mdt.partitions.length := by
    rw [update0_length rk pf t mdt now hterm, if_pos herr]
  exact update0_second_noop rk pf _ mdt now2 hterm herr
    (fun mp h => (hids mp h).1) hlen1
    (update0_establishes rk pf t mdt now hterm herr hids hnd)

/-- C6 witness: topic `"t"` with no partitions, broker 1 known; the
record `{err=NoError, partitions=[{id:0, leader:1}]}` applied twice —
the second application reports 0 changes and keeps the array. -/
theorem claim_C6_witness :
    (rd_kafka_topic_metadata_update0 ⟨.producer, false, [1], [], 0, none⟩
      (fun _ _ => none)
      ((rd_kafka_topic_metadata_update0 ⟨.producer, false, [1], [], 0, none⟩
        (fun _ _ => none)
        ⟨[116], .sUnknown, [], ⟨-1, none, false, false, [], []⟩, [], 0, ⟨0⟩⟩
        ⟨[116], .noError, [⟨0, 1⟩]⟩ 1).rkt)
      ⟨[116], .noError, [⟨0, 1⟩]⟩ 2).ret = 0 ∧
    ((rd_kafka_topic_metadata_update0 ⟨.producer, false, [1], [], 0, none⟩
      (fun _ _ => none)
      ((rd_kafka_topic_metadata_update0 ⟨.producer, false, [1], [], 0, none⟩
        (fun _ _ => none)
        ⟨[116], .sUnknown, [], ⟨-1, none, false, false, [], []⟩, [], 0, ⟨0⟩⟩
        ⟨[116], .noError, [⟨0, 1⟩]⟩ 1).rkt)
      ⟨[116], .noError, [⟨0, 1⟩]⟩ 2).rkt).rkt_p =
    ((rd_kafka_topic_metadata_update0 ⟨.producer, false, [1], [], 0, none⟩
      (fun _ _ => none)
      ⟨[116], .sUnknown, [], ⟨-1, none, false, false, [], []⟩, [], 0, ⟨0⟩⟩
      ⟨[116], .noError, [⟨0, 1⟩]⟩ 1).rkt).rkt_p :=
  claim_C6_idempotent ⟨.producer, false, [1], [], 0, none⟩ (fun _ _ => none)
    ⟨[116], .sUnknown, [], ⟨-1, none, false, false, [], []⟩, [], 0, ⟨0⟩⟩
    ⟨[116], .noError, [⟨0, 1⟩]⟩ 1 2 rfl rfl (by decide) (by decide)

end RdKafka
